import Mathlib

/-!
Shallow embedding of the concurrency core of the line-oriented
string-processing pipeline (monitor.c, consumer_producer.c,
plugin_common.c, the transform plugins, and main.c).

State is modelled explicitly; machine `int` fields that the code keeps
in `[0, capacity]` are `Nat`; C strings are `String`; a nullable
`char*` is `Option String`.  Operations that can block (the
pthread-based `monitor_wait`, and `put`/`get` through it) return a
result that is either a completed call or `blocked`: in a quiescent
state (no other thread running) a blocked call never returns, because
nothing can change the flag its wait loop re-checks.
-/

/-- Monitor ("Latch") state, monitor.c.  The mutex and condition
variable carry no quiescent-state information; the persistent state is
the `signaled` flag. -/
structure monitor_t where
  signaled : Bool
deriving Repr, DecidableEq

/-- `monitor_init` (monitor.c lines 4-16): the flag starts false. -/
def monitor_init : monitor_t := ⟨false⟩

/-- `monitor_signal` (monitor.c lines 18-24): sets `signaled = 1` and wakes
one waiter.  Idempotent on the flag. -/
def monitor_signal (_m : monitor_t) : monitor_t := ⟨true⟩

/-- `monitor_reset` (monitor.c lines 26-31): sets `signaled = 0`. -/
def monitor_reset (_m : monitor_t) : monitor_t := ⟨false⟩

/-- Outcome of `monitor_wait`: either the call returns (with its C return
code and the monitor state, which `monitor_wait` never changes), or the
calling thread is blocked inside `pthread_cond_wait`. -/
inductive wait_result where
  | ret (rc : Int) (m : monitor_t)
  | blocked (m : monitor_t)
deriving Repr, DecidableEq

/-- `monitor_wait` (monitor.c lines 33-46): loops
`while (!m->signaled) pthread_cond_wait(...)` and returns 0 once
`signaled` is true; it does not reset the flag.  In a quiescent state the
call returns exactly when `signaled` is already true; otherwise the
thread blocks, and a condition-variable wakeup that finds `signaled`
still false re-enters the wait. -/
def monitor_wait (m : monitor_t) : wait_result :=
  if m.signaled then .ret 0 m else .blocked m

/-- Bounded queue state, consumer_producer.c.  `items` is the malloc-ed
ring buffer of `capacity` slots; a slot holds `none` when it does not
own a string (uninitialized, or scribbled by a failed `strdup`). -/
structure consumer_producer_t where
  items : List (Option String)
  capacity : Nat
  count : Nat
  head : Nat
  tail : Nat
  not_full_monitor : monitor_t
  not_empty_monitor : monitor_t
  finished_monitor : monitor_t
deriving Repr, DecidableEq

/-- `consumer_producer_init` (consumer_producer.c lines 9-33).  The C
capacity is a signed int checked with `capacity <= 0`; allocation and
primitive-init failures are not modelled (the success path is taken).
`not_full` is signaled right after the monitors are initialized. -/
def consumer_producer_init (capacity : Int) : Option consumer_producer_t :=
  if capacity ≤ 0 then none
  else some
    { items := List.replicate capacity.toNat none
      capacity := capacity.toNat
      count := 0
      head := 0
      tail := 0
      not_full_monitor := monitor_signal monitor_init
      not_empty_monitor := monitor_init
      finished_monitor := monitor_init }

/-- Outcome of `consumer_producer_put`: success, an error message (the C
function returns `const char*`), or the producer blocked waiting on
`NOT_FULL`.  The queue state after the call is carried in every case. -/
inductive put_result where
  | ok (q : consumer_producer_t)
  | err (msg : String) (q : consumer_producer_t)
  | blocked (q : consumer_producer_t)
deriving Repr, DecidableEq

/-- The queue state carried by a `put_result`. -/
def put_result.state : put_result → consumer_producer_t
  | .ok q => q
  | .err _ q => q
  | .blocked q => q

/-- `consumer_producer_put` (consumer_producer.c lines 61-96).
`item` is the nullable C argument; `strdup_ok` says whether the
`strdup` deep copy succeeds.  Mirrors the source order: null checks,
wait on `NOT_FULL`, defensive capacity re-check, write the copy into
the tail slot (on `strdup` failure the slot has already been assigned
NULL), advance `tail` modulo capacity, increment `count`, re-signal or
reset `NOT_FULL`, signal `NOT_EMPTY`. -/
def consumer_producer_put (q : consumer_producer_t) (item : Option String)
    (strdup_ok : Bool) : put_result :=
  match item with
  | none => .err "Invalid parameters" q
  | some s =>
    match monitor_wait q.not_full_monitor with
    | .blocked _ => .blocked q
    | .ret _ _ =>
      if q.count ≥ q.capacity then .err "Queue is full" q
      else if ¬ strdup_ok then
        .err "Memory allocation failed" { q with items := q.items.set q.tail none }
      else
        let q1 := { q with items := q.items.set q.tail (some s) }
        let q2 := { q1 with tail := (q1.tail + 1) % q1.capacity, count := q1.count + 1 }
        let q3 :=
          if q2.count < q2.capacity then
            { q2 with not_full_monitor := monitor_signal q2.not_full_monitor }
          else
            { q2 with not_full_monitor := monitor_reset q2.not_full_monitor }
        .ok { q3 with not_empty_monitor := monitor_signal q3.not_empty_monitor }

/-- Outcome of `consumer_producer_get`: the call returns a nullable
string (NULL is the termination marker `⊥`), or the consumer is blocked
— either waiting on `NOT_EMPTY`, or spinning in the retry loop that in
a quiescent state never makes progress. -/
inductive get_result where
  | ret (item : Option String) (q : consumer_producer_t)
  | blocked (q : consumer_producer_t)
deriving Repr, DecidableEq

/-- The queue state carried by a `get_result`. -/
def get_result.state : get_result → consumer_producer_t
  | .ret _ q => q
  | .blocked q => q

/-- `consumer_producer_get` (consumer_producer.c lines 100-161).
Mirrors the loop body: sample `FINISHED.signaled` and `count == 0`; if
both, return NULL; wait on `NOT_EMPTY`; if `count > 0` extract the head
slot, advance `head` modulo capacity, decrement `count`, re-signal
`NOT_EMPTY` if items remain else reset it, signal `NOT_FULL`, and
return the item; else re-sample `FINISHED` and return NULL if it is
set, otherwise loop.  In a quiescent state looping back re-runs the
same body on the same state, so it never returns: `blocked`. -/
def consumer_producer_get (q : consumer_producer_t) : get_result :=
  if q.finished_monitor.signaled ∧ q.count = 0 then .ret none q
  else
    match monitor_wait q.not_empty_monitor with
    | .blocked _ => .blocked q
    | .ret _ _ =>
      if 0 < q.count then
        let item := q.items.getD q.head none
        let q1 := { q with head := (q.head + 1) % q.capacity, count := q.count - 1 }
        let q2 :=
          if 0 < q1.count then
            { q1 with not_empty_monitor := monitor_signal q1.not_empty_monitor }
          else
            { q1 with not_empty_monitor := monitor_reset q1.not_empty_monitor }
        .ret item { q2 with not_full_monitor := monitor_signal q2.not_full_monitor }
      else if q.finished_monitor.signaled then .ret none q
      else .blocked q

/-- `consumer_producer_signal_finished` (consumer_producer.c lines
164-172): signals the `FINISHED` monitor, then broadcasts on the raw
`not_empty_monitor.condition` variable.  The broadcast wakes threads
blocked in `pthread_cond_wait` but does NOT set
`not_empty_monitor.signaled`, so the monitor flags other than
`FINISHED` are unchanged. -/
def consumer_producer_signal_finished (q : consumer_producer_t) : consumer_producer_t :=
  { q with finished_monitor := monitor_signal q.finished_monitor }

/-- `consumer_producer_wait_finished` (consumer_producer.c lines 175-178). -/
def consumer_producer_wait_finished (q : consumer_producer_t) : wait_result :=
  monitor_wait q.finished_monitor

/-- The occupied slots of the ring buffer, oldest first: slot
`(head + i) % capacity` for `i < count`. -/
def queue_window (q : consumer_producer_t) : List (Option String) :=
  (List.range q.count).map (fun i => q.items.getD ((q.head + i) % q.capacity) none)

/-- The externally observable queue state: `count`, `head`, `tail` and
the contents of the occupied slots. -/
def queue_observable (q : consumer_producer_t) :
    Nat × Nat × Nat × List (Option String) :=
  (q.count, q.head, q.tail, queue_window q)

/-- Well-formedness of a reachable queue state: the dimensions are
consistent with the ring-buffer discipline and the two flow-control
monitor flags track the slot count exactly as `init`/`put`/`get`
maintain them. -/
def QueueWf (q : consumer_producer_t) : Prop :=
  0 < q.capacity ∧
  q.items.length = q.capacity ∧
  q.count ≤ q.capacity ∧
  q.head < q.capacity ∧
  q.tail = (q.head + q.count) % q.capacity ∧
  q.not_full_monitor.signaled = decide (q.count < q.capacity) ∧
  q.not_empty_monitor.signaled = decide (0 < q.count)

/-- The invariant quantified in the specification (§8): `0 ≤ count ≤ C`,
`NOT_FULL.signaled ⇔ count < C`, `head, tail ∈ [0, C)`. -/
def QueueSpecInv (q : consumer_producer_t) : Prop :=
  q.count ≤ q.capacity ∧
  (q.not_full_monitor.signaled = true ↔ q.count < q.capacity) ∧
  q.head < q.capacity ∧
  q.tail < q.capacity

/-- Every occupied slot owns a string (no NULL payload in the window). -/
def queue_window_some (q : consumer_producer_t) : Prop :=
  ∀ x ∈ queue_window q, x.isSome = true

/-- Per-stage plugin context, plugin_common.c.  The downstream
`next_place_work` function pointer is modelled as an abstract handle
identifier (`Option Nat`, `none` = not attached / last in chain). -/
structure plugin_context_t where
  name : Option String
  initialized : Bool
  finished : Bool
  queue : consumer_producer_t
  next_place_work : Option Nat
deriving Repr, DecidableEq

/-- Outcome of `plugin_place_work`: an error message, success, or the
caller blocked inside `consumer_producer_put`. -/
inductive place_work_result where
  | ok (ctx : plugin_context_t)
  | err (msg : String) (ctx : plugin_context_t)
  | blocked (ctx : plugin_context_t)
deriving Repr, DecidableEq

/-- The context carried by a `place_work_result`. -/
def place_work_result.ctx : place_work_result → plugin_context_t
  | .ok c => c
  | .err _ c => c
  | .blocked c => c

/-- `plugin_place_work` (plugin_common.c lines 166-194).  Checks, in
source order: NULL string, not initialized, already finished; then
delegates to `consumer_producer_put`; on put success, if the string is
the literal sentinel `"<END>"`, also calls
`consumer_producer_signal_finished`. -/
def plugin_place_work (ctx : plugin_context_t) (str : Option String)
    (strdup_ok : Bool) : place_work_result :=
  match str with
  | none => .err "NULL string provided" ctx
  | some s =>
    if ¬ ctx.initialized then .err "Plugin not initialized" ctx
    else if ctx.finished then .err "Plugin already finished processing" ctx
    else
      match consumer_producer_put ctx.queue (some s) strdup_ok with
      | .err msg q2 => .err msg { ctx with queue := q2 }
      | .blocked q2 => .blocked { ctx with queue := q2 }
      | .ok q2 =>
        if s = "<END>" then
          .ok { ctx with queue := consumer_producer_signal_finished q2 }
        else .ok { ctx with queue := q2 }

/-- `plugin_attach` (plugin_common.c lines 197-207): unconditionally
stores the given handle in `context.next_place_work` (the logging calls
do not touch the context). -/
def plugin_attach (ctx : plugin_context_t) (next : Option Nat) : plugin_context_t :=
  { ctx with next_place_work := next }

/-- One consumer-thread run (`plugin_consumer_thread`, plugin_common.c
lines 18-70) over the FIFO list of items its queue delivers, as a pure
function: on `"<END>"` forward the sentinel downstream when attached
and exit; on a normal item apply the transform, skip it when the
transform returns NULL, otherwise forward it downstream — or print it
when the stage is last in the chain.  The returned list is what the
stage hands on (downstream calls, or printed lines for the terminal
stage). -/
def plugin_consumer_run (transform : String → Option String) (has_next : Bool) :
    List String → List String
  | [] => []
  | item :: rest =>
    if item = "<END>" then (if has_next then ["<END>"] else [])
    else
      match transform item with
      | none => plugin_consumer_run transform has_next rest
      | some t => t :: plugin_consumer_run transform has_next rest

/-- Sequential composition of the per-stage workers over the whole
pipeline: every stage but the last forwards into the next stage's
queue (FIFO, so list order is preserved), the last stage prints. -/
def pipeline_run : List (String → Option String) → List String → List String
  | [], fed => fed
  | [t], fed => plugin_consumer_run t false fed
  | t :: t2 :: ts, fed => pipeline_run (t2 :: ts) (plugin_consumer_run t true fed)

/-- C `toupper` in the default locale: lowercase ASCII maps to the
corresponding uppercase letter, everything else is unchanged. -/
def c_toupper (c : Char) : Char :=
  if 'a' ≤ c ∧ c ≤ 'z' then Char.ofNat (c.toNat - 32) else c

/-- `uppercaser_transform` (uppercaser.c lines 13-30): every character
through `toupper`.  Allocation is modelled as succeeding. -/
def uppercaser_transform (input : String) : String :=
  String.mk (input.data.map c_toupper)

/-- `rotator_transform` (rotator.c lines 13-43): empty input maps to
`""`; otherwise the last character moves to the front and the rest
shift right (the source's `len == 1` special case coincides with the
general loop). -/
def rotator_transform (input : String) : String :=
  match input.data with
  | [] => ""
  | c :: cs => String.mk ((c :: cs).getLast (List.cons_ne_nil c cs) :: (c :: cs).dropLast)

/-- `logger_transform` (logger.c lines 13-31): prepends the literal
`"[logger] "`. -/
def logger_transform (input : String) : String :=
  "[logger] " ++ input

/-- Newline stripping of one `fgets` chunk (main.c lines 370-374): if
the chunk is non-empty and its last character is a newline, truncate
it. -/
def strip_newline (s : String) : String :=
  match s.data.getLast? with
  | some '\n' => String.mk s.data.dropLast
  | _ => s

/-- The stdin reading loop of `main` (main.c lines 366-388) over the
list of `fgets` chunks: strip the newline, feed the line to stage 0,
and stop — with `end_received` set — right after feeding a line equal
to `"<END>"`.  Returns the fed lines and the `end_received` flag. -/
def read_input_loop : List String → List String × Bool
  | [] => ([], false)
  | chunk :: rest =>
    let line := strip_newline chunk
    if line = "<END>" then ([line], true)
    else
      match read_input_loop rest with
      | (fed, endr) => (line :: fed, endr)

/-- Lines fed to stage 0 by the driver (main.c lines 366-396): the
reading loop, plus a synthesized `"<END>"` when stdin ended without
one. -/
def driver_feed (input : List String) : List String :=
  match read_input_loop input with
  | (fed, endr) => if endr then fed else fed ++ ["<END>"]

/-- Result of the driver's success path (main.c lines 366-420, after
loading, initializing and attaching succeeded): the lines fed to stage
0, the final line printed after every stage was waited on and
finalized, and the process exit code. -/
structure driver_run_t where
  fed : List String
  final_line : String
  exit_code : Nat
deriving Repr, DecidableEq

/-- The driver's success path: feed stdin (with sentinel synthesis),
wait for all stages, clean up, print `"Pipeline shutdown complete"`,
return 0 (main.c lines 398-420). -/
def main_run (input : List String) : driver_run_t :=
  { fed := driver_feed input
    final_line := "Pipeline shutdown complete"
    exit_code := 0 }

/-- A queue operation for the quiescent interleaving traces of §8:
each operation runs to completion (or blocks, changing nothing) before
the next is observed. -/
inductive queue_op where
  | put (s : String)
  | get
deriving Repr, DecidableEq

/-- Trace state: the queue plus the history of values committed by
successful `put` calls and values returned by successful `get` calls
(oldest first). -/
structure trace_state where
  q : consumer_producer_t
  puts : List String
  gets : List (Option String)
deriving Repr, DecidableEq

/-- One trace step: run the operation on the queue; a successful `put`
commits its value, a `get` that returns an item records it; errors,
NULL returns and blocked calls leave the histories unchanged. -/
def trace_step (t : trace_state) : queue_op → trace_state
  | .put s =>
    match consumer_producer_put t.q (some s) true with
    | .ok q2 => { q := q2, puts := t.puts ++ [s], gets := t.gets }
    | .err _ q2 => { t with q := q2 }
    | .blocked q2 => { t with q := q2 }
  | .get =>
    match consumer_producer_get t.q with
    | .ret (some item) q2 => { q := q2, puts := t.puts, gets := t.gets ++ [some item] }
    | .ret none q2 => { t with q := q2 }
    | .blocked q2 => { t with q := q2 }

/-- Run a list of queue operations from a trace state. -/
def trace_run (t : trace_state) : List queue_op → trace_state
  | [] => t
  | op :: ops => trace_run (trace_step t op) ops

/-- A concrete well-formed queue (capacity 2, one item) used to
instantiate hypotheses of the quantified theorems. -/
def queue_example_one : consumer_producer_t :=
  { items := [some "x", none]
    capacity := 2
    count := 1
    head := 0
    tail := 1
    not_full_monitor := ⟨true⟩
    not_empty_monitor := ⟨true⟩
    finished_monitor := ⟨false⟩ }

/-- A concrete initialized, unfinished plugin context over
`queue_example_one` with room in the queue. -/
def plugin_context_example : plugin_context_t :=
  { name := some "logger"
    initialized := true
    finished := false
    queue := queue_example_one
    next_place_work := none }

/-- The queue produced by `consumer_producer_init 1`: empty, capacity
1, `NOT_FULL` up, `NOT_EMPTY` and `FINISHED` down. -/
def queue_example_cap1 : consumer_producer_t :=
  { items := [none]
    capacity := 1
    count := 0
    head := 0
    tail := 0
    not_full_monitor := ⟨true⟩
    not_empty_monitor := ⟨false⟩
    finished_monitor := ⟨false⟩ }

/-- The queue produced by `consumer_producer_init 2`. -/
def queue_example_empty2 : consumer_producer_t :=
  { items := [none, none]
    capacity := 2
    count := 0
    head := 0
    tail := 0
    not_full_monitor := ⟨true⟩
    not_empty_monitor := ⟨false⟩
    finished_monitor := ⟨false⟩ }

/-! ## Helper lemmas -/

theorem window_index_ne (cap head i j : Nat) (hi : i < cap) (hj : j < cap)
    (hne : i ≠ j) : (head + i) % cap ≠ (head + j) % cap := by
  intro h
  have h2 : i ≡ j [MOD cap] := Nat.ModEq.add_left_cancel' head h
  rw [Nat.ModEq, Nat.mod_eq_of_lt hi, Nat.mod_eq_of_lt hj] at h2
  exact hne h2

/-- Writing to a slot outside the occupied window leaves the window
unchanged. -/
theorem queue_window_set_out (q : consumer_producer_t) (idx : Nat)
    (hidx : ∀ i, i < q.count → (q.head + i) % q.capacity ≠ idx) (v : Option String) :
    queue_window { q with items := q.items.set idx v } = queue_window q := by
  unfold queue_window
  apply List.map_congr_left
  intro i hi
  have hi2 := List.mem_range.mp hi
  simp only [List.getD]
  rw [List.get?_set_ne _ _ (Ne.symm (hidx i hi2))]

/-- The tail slot is outside the occupied window of a well-formed,
non-full queue. -/
theorem tail_not_in_window (q : consumer_producer_t) (hw : QueueWf q)
    (hcnt : q.count < q.capacity) :
    ∀ i, i < q.count → (q.head + i) % q.capacity ≠ q.tail := by
  obtain ⟨hcap, _, hle, hhead, htail, _, _⟩ := hw
  intro i hi
  rw [htail]
  exact window_index_ne q.capacity q.head i q.count
    (lt_trans hi hcnt) hcnt (Nat.ne_of_lt hi)

/-- `put` success path, characterized: when `NOT_FULL` is signaled and
there is room, the call copies the item into the tail slot, advances
`tail`, increments `count` and updates the two monitors. -/
theorem consumer_producer_put_ok (q : consumer_producer_t) (s : String)
    (hnf : q.not_full_monitor.signaled = true) (hcnt : q.count < q.capacity) :
    consumer_producer_put q (some s) true =
      put_result.ok
        { q with items := q.items.set q.tail (some s)
                 tail := (q.tail + 1) % q.capacity
                 count := q.count + 1
                 not_full_monitor := ⟨decide (q.count + 1 < q.capacity)⟩
                 not_empty_monitor := ⟨true⟩ } := by
  unfold consumer_producer_put monitor_wait monitor_signal monitor_reset
  rw [hnf]
  simp only [if_true, Nat.not_le.mpr hcnt, if_false, Bool.not_true, ite_false,
    Bool.false_eq_true, not_true_eq_false]
  split
  · rename_i h
    simp_all
  · rename_i h
    simp_all

/-- `put` on a full well-formed queue blocks (the `NOT_FULL` flag is
down). -/
theorem consumer_producer_put_full (q : consumer_producer_t) (s : String) (ok : Bool)
    (hw : QueueWf q) (hcnt : ¬ q.count < q.capacity) :
    consumer_producer_put q (some s) ok = put_result.blocked q := by
  obtain ⟨_, _, _, _, _, hnf, _⟩ := hw
  unfold consumer_producer_put monitor_wait
  rw [hnf]
  simp [hcnt]

/-- The occupied window after a successful `put`: the item is appended
at the end. -/
theorem queue_window_put_ok (q : consumer_producer_t) (s : String)
    (hw : QueueWf q) (hcnt : q.count < q.capacity) :
    queue_window
      { q with items := q.items.set q.tail (some s)
               tail := (q.tail + 1) % q.capacity
               count := q.count + 1
               not_full_monitor := ⟨decide (q.count + 1 < q.capacity)⟩
               not_empty_monitor := ⟨true⟩ } =
      queue_window q ++ [some s] := by
  obtain ⟨hcap, hlen, hle, hhead, htail, _, _⟩ := hw
  unfold queue_window
  simp only [List.range_succ, List.map_append, List.map_cons, List.map_nil]
  congr 1
  · apply List.map_congr_left
    intro i hi
    have hi2 := List.mem_range.mp hi
    simp only [List.getD]
    rw [List.get?_set_ne _ _ (Ne.symm (htail ▸ window_index_ne q.capacity q.head i q.count
      (lt_trans hi2 hcnt) hcnt (Nat.ne_of_lt hi2)))]
  · simp only [List.getD, ← htail]
    rw [List.get?_set_eq_of_lt (some s) (by rw [hlen, htail]; exact Nat.mod_lt _ hcap)]
    rfl

/-- `QueueWf` is preserved by a successful `put`. -/
theorem QueueWf_put_ok (q : consumer_producer_t) (s : String)
    (hw : QueueWf q) (hcnt : q.count < q.capacity) :
    QueueWf
      { q with items := q.items.set q.tail (some s)
               tail := (q.tail + 1) % q.capacity
               count := q.count + 1
               not_full_monitor := ⟨decide (q.count + 1 < q.capacity)⟩
               not_empty_monitor := ⟨true⟩ } := by
  obtain ⟨hcap, hlen, hle, hhead, htail, _, _⟩ := hw
  refine ⟨hcap, ?_, hcnt, hhead, ?_, by simp, by simp⟩
  · simpa [List.length_set] using hlen
  · simp only [htail, Nat.mod_add_mod]
    congr 1

/-- `get` extraction path, characterized: when `NOT_EMPTY` is signaled
and the queue is non-empty, the call returns the head slot and advances
the ring. -/
theorem consumer_producer_get_pop (q : consumer_producer_t)
    (hne : q.not_empty_monitor.signaled = true) (hcnt : 0 < q.count) :
    consumer_producer_get q =
      get_result.ret (q.items.getD q.head none)
        { q with head := (q.head + 1) % q.capacity
                 count := q.count - 1
                 not_empty_monitor := ⟨decide (0 < q.count - 1)⟩
                 not_full_monitor := ⟨true⟩ } := by
  unfold consumer_producer_get monitor_wait monitor_signal monitor_reset
  rw [hne]
  simp only [Nat.pos_iff_ne_zero.mp hcnt, and_false, if_false, if_true, hcnt]
  split
  · rename_i h
    simp_all
  · rename_i h
    simp_all

/-- `get` on an empty, unfinished, well-formed queue blocks (the
`NOT_EMPTY` flag is down). -/
theorem consumer_producer_get_empty (q : consumer_producer_t) (hw : QueueWf q)
    (hf : q.finished_monitor.signaled = false) (hcnt : q.count = 0) :
    consumer_producer_get q = get_result.blocked q := by
  obtain ⟨_, _, _, _, _, _, hne⟩ := hw
  unfold consumer_producer_get monitor_wait
  rw [hne]
  simp [hf, hcnt]

/-- The occupied window of a non-empty queue, decomposed: the head slot
followed by the window of the popped state. -/
theorem queue_window_get_pop (q : consumer_producer_t)
    (hw : QueueWf q) (hcnt : 0 < q.count) :
    queue_window q =
      q.items.getD q.head none ::
        queue_window
          { q with head := (q.head + 1) % q.capacity
                   count := q.count - 1
                   not_empty_monitor := ⟨decide (0 < q.count - 1)⟩
                   not_full_monitor := ⟨true⟩ } := by
  obtain ⟨hcap, hlen, hle, hhead, htail, _, _⟩ := hw
  unfold queue_window
  obtain ⟨k, hk⟩ : ∃ k, q.count = k + 1 := ⟨q.count - 1, by omega⟩
  simp only [hk, Nat.add_sub_cancel]
  rw [List.range_succ_eq_map k, List.map_cons, List.map_map]
  congr 1
  · rw [Nat.add_zero, Nat.mod_eq_of_lt hhead]
  · apply List.map_congr_left
    intro i hi
    simp only [Function.comp]
    rw [Nat.mod_add_mod]
    congr 2
    omega

/-- `QueueWf` is preserved by a successful `get`. -/
theorem QueueWf_get_pop (q : consumer_producer_t)
    (hw : QueueWf q) (hcnt : 0 < q.count) :
    QueueWf
      { q with head := (q.head + 1) % q.capacity
               count := q.count - 1
               not_empty_monitor := ⟨decide (0 < q.count - 1)⟩
               not_full_monitor := ⟨true⟩ } := by
  obtain ⟨hcap, hlen, hle, hhead, htail, _, _⟩ := hw
  have hlt : q.count - 1 < q.capacity := by omega
  refine ⟨hcap, hlen, ?_, Nat.mod_lt _ hcap, ?_, ?_, ?_⟩
  · show q.count - 1 ≤ q.capacity
    omega
  · show q.tail = ((q.head + 1) % q.capacity + (q.count - 1)) % q.capacity
    rw [htail, Nat.mod_add_mod]
    congr 1
    omega
  · show true = decide (q.count - 1 < q.capacity)
    simp [hlt]
  · rfl

/-- Invariant of the quiescent put/get traces: the queue is well
formed, `FINISHED` was never signaled, and the committed puts are
exactly the returned gets followed by the items still in the queue. -/
def TraceInv (t : trace_state) : Prop :=
  QueueWf t.q ∧ t.q.finished_monitor.signaled = false ∧
  t.puts.map some = t.gets ++ queue_window t.q

/-- One trace step preserves the trace invariant. -/
theorem trace_step_inv (t : trace_state) (op : queue_op) (h : TraceInv t) :
    TraceInv (trace_step t op) := by
  obtain ⟨hw, hf, hrel⟩ := h
  cases op with
  | put s =>
    rcases Nat.lt_or_ge t.q.count t.q.capacity with hlt | hge
    · have hnf : t.q.not_full_monitor.signaled = true := by
        obtain ⟨_, _, _, _, _, hnf2, _⟩ := hw
        rw [hnf2]
        simp [hlt]
      simp only [trace_step, consumer_producer_put_ok t.q s hnf hlt]
      refine ⟨QueueWf_put_ok t.q s hw hlt, hf, ?_⟩
      rw [queue_window_put_ok t.q s hw hlt]
      simp only [List.map_append, List.map_cons, List.map_nil, hrel, List.append_assoc]
    · simp only [trace_step,
        consumer_producer_put_full t.q s true hw (Nat.not_lt.mpr hge)]
      exact ⟨hw, hf, hrel⟩
  | get =>
    rcases Nat.eq_zero_or_pos t.q.count with hz | hpos
    · simp only [trace_step, consumer_producer_get_empty t.q hw hf hz]
      exact ⟨hw, hf, hrel⟩
    · have hne : t.q.not_empty_monitor.signaled = true := by
        obtain ⟨_, _, _, _, _, _, hne2⟩ := hw
        rw [hne2]
        simp [hpos]
      have hitem : ∃ s0, t.q.items.getD t.q.head none = some s0 := by
        have hmem : t.q.items.getD t.q.head none ∈ t.puts.map some := by
          rw [hrel, queue_window_get_pop t.q hw hpos]
          exact List.mem_append_right _ (List.mem_cons_self _ _)
        obtain ⟨s0, _, hs0⟩ := List.mem_map.mp hmem
        exact ⟨s0, hs0.symm⟩
      obtain ⟨s0, hs0⟩ := hitem
      simp only [trace_step, consumer_producer_get_pop t.q hne hpos, hs0]
      refine ⟨QueueWf_get_pop t.q hw hpos, hf, ?_⟩
      rw [hrel, queue_window_get_pop t.q hw hpos, hs0]
      simp [List.append_assoc]

/-- Running a whole operation list preserves the trace invariant. -/
theorem trace_run_inv (ops : List queue_op) (t : trace_state) (h : TraceInv t) :
    TraceInv (trace_run t ops) := by
  induction ops generalizing t with
  | nil => exact h
  | cons op ops ih => exact ih _ (trace_step_inv t op h)

/-- `init` establishes well-formedness, an empty window, and a clear
`FINISHED` flag. -/
theorem consumer_producer_init_wf (c : Int) (q : consumer_producer_t)
    (h : consumer_producer_init c = some q) :
    QueueWf q ∧ queue_window q = [] ∧ q.finished_monitor.signaled = false := by
  unfold consumer_producer_init at h
  split at h
  · exact absurd h (by simp)
  · rename_i hc
    have hq := (Option.some_inj.mp h).symm
    have hcap : 0 < c.toNat := by omega
    subst hq
    refine ⟨⟨hcap, List.length_replicate _ _, Nat.zero_le _, hcap, by simp, ?_, ?_⟩, ?_, rfl⟩
    · show true = decide (0 < c.toNat)
      simp [hcap]
    · rfl
    · rfl

/-- `put` never touches the `FINISHED` monitor, whatever its outcome. -/
theorem put_preserves_finished (q : consumer_producer_t) (item : Option String)
    (ok : Bool) :
    (consumer_producer_put q item ok).state.finished_monitor = q.finished_monitor := by
  unfold consumer_producer_put monitor_wait
  cases item with
  | none => rfl
  | some s =>
    cases hnf : q.not_full_monitor.signaled <;> simp only [hnf] <;> split_ifs <;> rfl

/-- The driver feeding loop, characterized: the stripped lines up to
(and excluding) the first `"<END>"`, followed by one `"<END>"` —
whether it came from the input or was synthesized at EOF. -/
theorem driver_feed_spec (input : List String) :
    driver_feed input =
      (input.map strip_newline).takeWhile (fun l => l ≠ "<END>") ++ ["<END>"] := by
  induction input with
  | nil => rfl
  | cons c rest ih =>
    by_cases h : strip_newline c = "<END>"
    · simp [driver_feed, read_input_loop, h, List.takeWhile_cons]
    · rw [driver_feed, read_input_loop]
      simp only [h, if_false]
      rcases hrest : read_input_loop rest with ⟨fed, endr⟩
      rw [driver_feed, hrest] at ih
      simp only [List.map_cons, List.takeWhile_cons, h, decide_not]
      cases endr with
      | true => simpa using ih
      | false => simpa using ih

/-! ## Claim theorems -/

/-- Claim C6: for every Latch, the sequence
`signal; signal; reset; signal; wait` releases the wait — `monitor_wait`
returns success without blocking — and after `wait` returns, `signaled`
is still true, because `monitor_wait` does not reset the flag: a signal
that precedes any wait releases the next wait. -/
theorem latch_signal_reset_signal_wait (m : monitor_t) :
    monitor_wait (monitor_signal (monitor_reset (monitor_signal (monitor_signal m)))) =
      wait_result.ret 0 (monitor_signal (monitor_reset (monitor_signal (monitor_signal m)))) ∧
    (monitor_signal (monitor_reset (monitor_signal (monitor_signal m)))).signaled = true :=
  ⟨rfl, rfl⟩

/-- Claim C1 (the code violates it): on the empty queue produced by
`init 1`, a consumer inside `consumer_producer_get` is blocked in
`monitor_wait` on `NOT_EMPTY` (the flag is down).
`consumer_producer_signal_finished` raises `FINISHED` but leaves the
`NOT_EMPTY` monitor state — and in particular its `signaled` flag —
unchanged: its `pthread_cond_broadcast` wakes the waiter, but
`monitor_wait`'s loop guard `while (!m->signaled)` re-checks the flag
and re-enters `pthread_cond_wait`, so the already-blocked consumer is
never released and its `get` never returns.  Only a `get` started
after `signal_finished` returns `⊥`. -/
theorem signal_finished_lost_for_blocked_consumer :
    consumer_producer_init 1 = some queue_example_cap1 ∧
    monitor_wait queue_example_cap1.not_empty_monitor =
      wait_result.blocked queue_example_cap1.not_empty_monitor ∧
    (consumer_producer_signal_finished queue_example_cap1).finished_monitor.signaled = true ∧
    (consumer_producer_signal_finished queue_example_cap1).not_empty_monitor =
      queue_example_cap1.not_empty_monitor ∧
    monitor_wait (consumer_producer_signal_finished queue_example_cap1).not_empty_monitor =
      wait_result.blocked
        (consumer_producer_signal_finished queue_example_cap1).not_empty_monitor ∧
    consumer_producer_get (consumer_producer_signal_finished queue_example_cap1) =
      get_result.ret none (consumer_producer_signal_finished queue_example_cap1) := by
  refine ⟨by decide, by decide, by decide, by decide, by decide, by decide⟩

/-- Claim C9 counterexample: the downstream handle set by `attach` is
not immutable — a second `plugin_attach` call overwrites it. -/
theorem attach_overwrites_counterexample :
    (plugin_attach plugin_context_example (some 1)).next_place_work = some 1 ∧
    (plugin_attach (plugin_attach plugin_context_example (some 1)) (some 2)).next_place_work =
      some 2 ∧
    (some 2 : Option Nat) ≠ some 1 :=
  ⟨rfl, rfl, by decide⟩

/-- Claim C9, amended: `attach` stores the given handle each time it is
called — the last `attach` wins — and no other stage operation
(`place_work` in any of its outcomes) changes the downstream handle;
so the handle is fixed once the driver has attached each stage (which
it does exactly once, before feeding input). -/
theorem attach_sets_handle_and_nothing_else_changes_it :
    (∀ (ctx : plugin_context_t) (h : Option Nat),
        (plugin_attach ctx h).next_place_work = h) ∧
    (∀ (ctx : plugin_context_t) (h h2 : Option Nat),
        plugin_attach (plugin_attach ctx h) h2 = plugin_attach ctx h2) ∧
    (∀ (ctx : plugin_context_t) (str : Option String) (ok : Bool),
        (plugin_place_work ctx str ok).ctx.next_place_work = ctx.next_place_work) := by
  refine ⟨fun ctx h => rfl, fun ctx h h2 => rfl, fun ctx str ok => ?_⟩
  unfold plugin_place_work
  cases str with
  | none => rfl
  | some s =>
    by_cases hi : ctx.initialized
    · by_cases hf : ctx.finished
      · simp [hi, hf, place_work_result.ctx]
      · rcases hput : consumer_producer_put ctx.queue (some s) ok with q2 | ⟨msg, q2⟩ | q2 <;>
          simp [hi, hf, hput, place_work_result.ctx] <;>
          split_ifs <;> rfl
    · simp [hi, place_work_result.ctx]

/-- Claim C7: the driver feeds exactly the newline-stripped input lines
up to and including the first `"<END>"` — it stops reading right after
feeding the sentinel, and synthesizes one when standard input ends
without it — and the success path ends by printing the final line
`"Pipeline shutdown complete"` and exiting with code 0. -/
theorem driver_feed_and_shutdown (input : List String) :
    driver_feed input =
      (input.map strip_newline).takeWhile (fun l => l ≠ "<END>") ++ ["<END>"] ∧
    (main_run input).fed = driver_feed input ∧
    (main_run input).final_line = "Pipeline shutdown complete" ∧
    (main_run input).exit_code = 0 :=
  ⟨driver_feed_spec input, rfl, rfl, rfl⟩

/-- Claim C8: `uppercaser` maps `"hello"` to `"HELLO"` (each character
through `toupper`), `rotator` moves the last character of a non-empty
string to the front (`"HELLO"` to `"OHELL"`), `logger` adds the
`"[logger] "` tag; their composition maps `"hello"` to
`"[logger] OHELL"`, and the pipeline `[uppercaser, rotator, logger]`
on the input lines `hello` and `<END>` prints exactly
`"[logger] OHELL"` before the completion notice. -/
theorem pipeline_uppercaser_rotator_logger_hello :
    uppercaser_transform "hello" = "HELLO" ∧
    rotator_transform "HELLO" = "OHELL" ∧
    logger_transform "OHELL" = "[logger] OHELL" ∧
    logger_transform (rotator_transform (uppercaser_transform "hello")) = "[logger] OHELL" ∧
    pipeline_run
      [fun s => some (uppercaser_transform s), fun s => some (rotator_transform s),
        fun s => some (logger_transform s)]
      (driver_feed ["hello\n", "<END>\n"]) = ["[logger] OHELL"] ∧
    (main_run ["hello\n", "<END>\n"]).final_line = "Pipeline shutdown complete" := by
  refine ⟨by decide, by decide, by decide, by decide, by decide, rfl⟩

/-- Claim C2: `get` returns `⊥` exactly when `FINISHED` is signaled and
`count = 0` at the point it decides; and whenever `count > 0` — the
`FINISHED` state does not matter, so pending items are drained before
`⊥` — `get` extracts the head slot, advances `head` modulo the
capacity, decrements `count`, re-signals `NOT_EMPTY` when items remain
and resets it otherwise, signals `NOT_FULL`, and returns the extracted
string. -/
theorem get_drains_then_returns_bottom (q : consumer_producer_t)
    (hw : QueueWf q) (hs : queue_window_some q) :
    ((∃ q2, consumer_producer_get q = get_result.ret none q2) ↔
      (q.finished_monitor.signaled = true ∧ q.count = 0)) ∧
    (0 < q.count →
      consumer_producer_get q =
        get_result.ret (q.items.getD q.head none)
          { q with head := (q.head + 1) % q.capacity
                   count := q.count - 1
                   not_empty_monitor := ⟨decide (0 < q.count - 1)⟩
                   not_full_monitor := ⟨true⟩ }) := by
  have hw2 := hw
  obtain ⟨hcap, hlen, hle, hhead, htail, hnf, hne⟩ := hw2
  constructor
  · constructor
    · rintro ⟨q2, hq2⟩
      rcases Nat.eq_zero_or_pos q.count with hz | hpos
      · cases hfin : q.finished_monitor.signaled
        · rw [consumer_producer_get_empty q hw hfin hz] at hq2
          exact absurd hq2 (by simp)
        · exact ⟨rfl, hz⟩
      · have hne2 : q.not_empty_monitor.signaled = true := by
          rw [hne]
          simp [hpos]
        rw [consumer_producer_get_pop q hne2 hpos] at hq2
        have hhd : q.items.getD q.head none ∈ queue_window q := by
          rw [queue_window_get_pop q hw hpos]
          exact List.mem_cons_self _ _
        have hsome := hs _ hhd
        injection hq2 with h1 h2
        rw [h1] at hsome
        simp at hsome
    · rintro ⟨hfin, hz⟩
      exact ⟨q, by simp [consumer_producer_get, hfin, hz]⟩
  · intro hpos
    have hne2 : q.not_empty_monitor.signaled = true := by
      rw [hne]
      simp [hpos]
    exact consumer_producer_get_pop q hne2 hpos

/-- Witness for C2 at a concrete well-formed one-item queue: `get`
extracts the single item, resets `NOT_EMPTY`, signals `NOT_FULL`. -/
theorem get_drains_then_returns_bottom_witness :
    QueueWf queue_example_one ∧ queue_window_some queue_example_one ∧
    0 < queue_example_one.count ∧
    consumer_producer_get queue_example_one =
      get_result.ret (queue_example_one.items.getD queue_example_one.head none)
        { queue_example_one with
            head := (queue_example_one.head + 1) % queue_example_one.capacity
            count := queue_example_one.count - 1
            not_empty_monitor := ⟨decide (0 < queue_example_one.count - 1)⟩
            not_full_monitor := ⟨true⟩ } :=
  ⟨by unfold QueueWf; decide, by unfold queue_window_some; decide, by decide,
    (get_drains_then_returns_bottom queue_example_one (by unfold QueueWf; decide)
      (by unfold queue_window_some; decide)).2 (by decide)⟩

/-- `put` blocks when the `NOT_FULL` flag is down. -/
theorem consumer_producer_put_wait_down (q : consumer_producer_t) (s : String) (ok : Bool)
    (hnf : q.not_full_monitor.signaled = false) :
    consumer_producer_put q (some s) ok = put_result.blocked q := by
  unfold consumer_producer_put monitor_wait
  rw [hnf]
  simp

/-- `put` when the flag is up but the deep copy fails: the tail slot
has been scribbled with NULL, nothing else changed. -/
theorem consumer_producer_put_copy_fail (q : consumer_producer_t) (s : String)
    (hnf : q.not_full_monitor.signaled = true) (hcnt : q.count < q.capacity) :
    consumer_producer_put q (some s) false =
      put_result.err "Memory allocation failed"
        { q with items := q.items.set q.tail none } := by
  unfold consumer_producer_put monitor_wait
  rw [hnf]
  simp [Nat.not_le.mpr hcnt]

/-- `put`'s defensive re-check: released while full, it fails without
touching the queue. -/
theorem consumer_producer_put_recheck_full (q : consumer_producer_t) (s : String) (ok : Bool)
    (hnf : q.not_full_monitor.signaled = true) (hge : q.capacity ≤ q.count) :
    consumer_producer_put q (some s) ok = put_result.err "Queue is full" q := by
  unfold consumer_producer_put monitor_wait
  rw [hnf]
  simp [hge]

/-- The stronger reachable-state invariant implies the specification
invariant of §8. -/
theorem QueueSpecInv_of_wf (q : consumer_producer_t) (hw : QueueWf q) : QueueSpecInv q := by
  obtain ⟨hcap, hlen, hle, hhead, htail, hnf, hne⟩ := hw
  refine ⟨hle, ?_, hhead, ?_⟩
  · rw [hnf]
    simp
  · rw [htail]
    exact Nat.mod_lt _ hcap

/-- Claim C4: `init` establishes — and every `put`/`get` call, whatever
its outcome, preserves — the state invariant `count ≤ C`,
`NOT_FULL.signaled ⇔ count < C`, `head, tail ∈ [0, C)`; so at every
quiescent observation point of an interleaving of `put` and `get` the
invariant holds. -/
theorem queue_invariant_preserved :
    (∀ (c : Int) (q : consumer_producer_t),
        consumer_producer_init c = some q → QueueSpecInv q) ∧
    (∀ (q : consumer_producer_t) (item : Option String) (ok : Bool),
        QueueSpecInv q → QueueSpecInv (consumer_producer_put q item ok).state) ∧
    (∀ q : consumer_producer_t,
        QueueSpecInv q → QueueSpecInv (consumer_producer_get q).state) := by
  refine ⟨?_, ?_, ?_⟩
  · intro c q h
    exact QueueSpecInv_of_wf q (consumer_producer_init_wf c q h).1
  · intro q item ok hinv
    obtain ⟨hle, hnf, hhead, htail⟩ := hinv
    have hcap : 0 < q.capacity := Nat.lt_of_le_of_lt (Nat.zero_le q.head) hhead
    cases item with
    | none => exact ⟨hle, hnf, hhead, htail⟩
    | some s =>
      cases hnfb : q.not_full_monitor.signaled
      · rw [consumer_producer_put_wait_down q s ok hnfb]
        exact ⟨hle, hnf, hhead, htail⟩
      · have hcnt : q.count < q.capacity := hnf.mp hnfb
        cases ok
        · rw [consumer_producer_put_copy_fail q s hnfb hcnt]
          exact ⟨hle, hnf, hhead, htail⟩
        · rw [consumer_producer_put_ok q s hnfb hcnt]
          dsimp only [put_result.state]
          refine ⟨?_, ?_, hhead, Nat.mod_lt _ hcap⟩
          · show q.count + 1 ≤ q.capacity
            omega
          · show decide (q.count + 1 < q.capacity) = true ↔ q.count + 1 < q.capacity
            simp
  · intro q hinv
    obtain ⟨hle, hnf, hhead, htail⟩ := hinv
    have hcap : 0 < q.capacity := Nat.lt_of_le_of_lt (Nat.zero_le q.head) hhead
    by_cases hpos : 0 < q.count
    · cases hne : q.not_empty_monitor.signaled
      · have hblk : consumer_producer_get q = get_result.blocked q := by
          unfold consumer_producer_get monitor_wait
          rw [hne]
          simp [Nat.pos_iff_ne_zero.mp hpos]
        rw [hblk]
        exact ⟨hle, hnf, hhead, htail⟩
      · rw [consumer_producer_get_pop q hne hpos]
        dsimp only [get_result.state]
        refine ⟨?_, ⟨fun _ => ?_, fun _ => rfl⟩, Nat.mod_lt _ hcap, htail⟩
        · show q.count - 1 ≤ q.capacity
          omega
        · show q.count - 1 < q.capacity
          omega
    · have hz : q.count = 0 := by omega
      have hst : (consumer_producer_get q).state = q := by
        unfold consumer_producer_get monitor_wait
        cases hne : q.not_empty_monitor.signaled <;>
          by_cases hfin : q.finished_monitor.signaled = true <;>
          simp [hfin, hz, get_result.state]
      rw [hst]
      exact ⟨hle, hnf, hhead, htail⟩

/-- Witness for C4: the invariant holds for a concrete queue and is
carried through a concrete `put` and a concrete `get`. -/
theorem queue_invariant_preserved_witness :
    QueueSpecInv queue_example_one ∧
    QueueSpecInv (consumer_producer_put queue_example_one (some "a") true).state ∧
    QueueSpecInv (consumer_producer_get queue_example_one).state :=
  ⟨by unfold QueueSpecInv; decide,
    queue_invariant_preserved.2.1 queue_example_one (some "a") true
      (by unfold QueueSpecInv; decide),
    queue_invariant_preserved.2.2 queue_example_one (by unfold QueueSpecInv; decide)⟩

/-- Claim C10: whenever `put` returns an error — NULL item, `count ≥
capacity` at the post-wait re-check, or `strdup` failure — the queue's
observable state (`count`, `head`, `tail`, and every occupied slot) is
exactly what it was before the call: a failed `put` is atomic and the
rejected item is never enqueued.  (The `strdup`-failure path writes
NULL into the tail slot, but that slot is outside the occupied
window.) -/
theorem put_failure_is_atomic (q : consumer_producer_t) (hw : QueueWf q)
    (item : Option String) (ok : Bool) (msg : String) (q2 : consumer_producer_t)
    (herr : consumer_producer_put q item ok = put_result.err msg q2) :
    queue_observable q2 = queue_observable q := by
  cases item with
  | none =>
    injection herr with h1 h2
    rw [← h2]
  | some s =>
    cases hnfb : q.not_full_monitor.signaled
    · rw [consumer_producer_put_wait_down q s ok hnfb] at herr
      exact absurd herr (by simp)
    · by_cases hcnt : q.count < q.capacity
      · cases ok
        · rw [consumer_producer_put_copy_fail q s hnfb hcnt] at herr
          injection herr with h1 h2
          rw [← h2]
          unfold queue_observable
          rw [queue_window_set_out q q.tail (tail_not_in_window q hw hcnt) none]
        · rw [consumer_producer_put_ok q s hnfb hcnt] at herr
          exact absurd herr (by simp)
      · rw [consumer_producer_put_recheck_full q s ok hnfb (Nat.not_lt.mp hcnt)] at herr
        injection herr with h1 h2
        rw [← h2]

/-- Witness for C10: a concrete `put` whose deep copy fails leaves the
concrete queue's observable state untouched. -/
theorem put_failure_is_atomic_witness :
    QueueWf queue_example_one ∧
    queue_observable (consumer_producer_put queue_example_one (some "a") false).state =
      queue_observable queue_example_one :=
  ⟨by unfold QueueWf; decide,
    put_failure_is_atomic queue_example_one (by unfold QueueWf; decide) (some "a") false
      "Memory allocation failed"
      (consumer_producer_put queue_example_one (some "a") false).state (by decide)⟩

/-- Claim C5: `plugin_place_work` fails with the NULL-string error for
an absent string, the not-initialized error when the stage is not
initialized, and the already-finished error when the `finished` flag is
set — in that order; otherwise it delegates to `consumer_producer_put`
(propagating its error verbatim), and on success additionally calls
`consumer_producer_signal_finished` exactly when the string is the
literal sentinel `"<END>"`: the queue's `FINISHED` latch ends up
signaled iff the item was the sentinel or the latch was already set. -/
theorem place_work_contract :
    (∀ (ctx : plugin_context_t) (ok : Bool),
        plugin_place_work ctx none ok = place_work_result.err "NULL string provided" ctx) ∧
    (∀ (ctx : plugin_context_t) (s : String) (ok : Bool), ctx.initialized = false →
        plugin_place_work ctx (some s) ok =
          place_work_result.err "Plugin not initialized" ctx) ∧
    (∀ (ctx : plugin_context_t) (s : String) (ok : Bool), ctx.initialized = true →
        ctx.finished = true →
        plugin_place_work ctx (some s) ok =
          place_work_result.err "Plugin already finished processing" ctx) ∧
    (∀ (ctx : plugin_context_t) (s : String) (ok : Bool) (msg : String)
        (q2 : consumer_producer_t), ctx.initialized = true → ctx.finished = false →
        consumer_producer_put ctx.queue (some s) ok = put_result.err msg q2 →
        plugin_place_work ctx (some s) ok =
          place_work_result.err msg { ctx with queue := q2 }) ∧
    (∀ (ctx : plugin_context_t) (s : String) (ok : Bool) (q2 : consumer_producer_t),
        ctx.initialized = true → ctx.finished = false →
        consumer_producer_put ctx.queue (some s) ok = put_result.ok q2 →
        plugin_place_work ctx (some s) ok =
          place_work_result.ok
            { ctx with queue :=
                if s = "<END>" then consumer_producer_signal_finished q2 else q2 } ∧
        (((plugin_place_work ctx (some s) ok).ctx.queue.finished_monitor.signaled = true) ↔
          (s = "<END>" ∨ ctx.queue.finished_monitor.signaled = true))) := by
  refine ⟨fun ctx ok => rfl, ?_, ?_, ?_, ?_⟩
  · intro ctx s ok hi
    unfold plugin_place_work
    simp [hi]
  · intro ctx s ok hi hf
    unfold plugin_place_work
    simp [hi, hf]
  · intro ctx s ok msg q2 hi hf hput
    unfold plugin_place_work
    simp [hi, hf, hput]
  · intro ctx s ok q2 hi hf hput
    have hpres : q2.finished_monitor = ctx.queue.finished_monitor := by
      have hp := put_preserves_finished ctx.queue (some s) ok
      rw [hput] at hp
      exact hp
    constructor
    · unfold plugin_place_work
      simp only [hi, hf, hput, Bool.true_eq_false, not_true_eq_false, ite_false,
        Bool.false_eq_true, if_false]
      split_ifs <;> rfl
    · unfold plugin_place_work
      simp only [hi, hf, hput, Bool.true_eq_false, not_true_eq_false, ite_false,
        Bool.false_eq_true, if_false]
      split_ifs with hs
      · simp [hs, place_work_result.ctx, consumer_producer_signal_finished, monitor_signal]
      · simp [hs, place_work_result.ctx, hpres]

/-- Witness for C5: feeding the sentinel to a concrete initialized,
unfinished stage succeeds and leaves the queue's `FINISHED` latch
signaled. -/
theorem place_work_contract_witness :
    plugin_context_example.initialized = true ∧
    plugin_context_example.finished = false ∧
    (plugin_place_work plugin_context_example (some "<END>") true =
        place_work_result.ok
          { plugin_context_example with
              queue :=
                if "<END>" = "<END>" then
                  consumer_producer_signal_finished
                    (consumer_producer_put plugin_context_example.queue
                        (some "<END>") true).state
                else
                  (consumer_producer_put plugin_context_example.queue
                      (some "<END>") true).state } ∧
      (((plugin_place_work plugin_context_example
            (some "<END>") true).ctx.queue.finished_monitor.signaled = true) ↔
        ("<END>" = "<END>" ∨
          plugin_context_example.queue.finished_monitor.signaled = true))) :=
  ⟨rfl, rfl,
    place_work_contract.2.2.2.2 plugin_context_example "<END>" true
      (consumer_producer_put plugin_context_example.queue (some "<END>") true).state
      rfl rfl (by decide)⟩

/-- Claim C3: FIFO.  For every capacity and every sequence of `put` and
`get` operations run from a freshly initialized queue, the list of
values returned by successful `get` calls is the prefix of the list of
values committed by successful `put` calls — in particular the k-th
successful `get` returns exactly the k-th committed value. -/
theorem queue_fifo (c : Int) (q : consumer_producer_t)
    (hinit : consumer_producer_init c = some q) (ops : List queue_op) :
    (trace_run ⟨q, [], []⟩ ops).gets =
      ((trace_run ⟨q, [], []⟩ ops).puts.map some).take
        (trace_run ⟨q, [], []⟩ ops).gets.length ∧
    (∀ k, k < (trace_run ⟨q, [], []⟩ ops).gets.length →
      (trace_run ⟨q, [], []⟩ ops).gets.getD k none =
        some ((trace_run ⟨q, [], []⟩ ops).puts.getD k "")) := by
  obtain ⟨hw0, hwin0, hf0⟩ := consumer_producer_init_wf c q hinit
  have hinv : TraceInv ⟨q, [], []⟩ := ⟨hw0, hf0, by simp [hwin0]⟩
  obtain ⟨_, _, hrel⟩ := trace_run_inv ops ⟨q, [], []⟩ hinv
  have htake : (trace_run ⟨q, [], []⟩ ops).gets =
      ((trace_run ⟨q, [], []⟩ ops).puts.map some).take
        (trace_run ⟨q, [], []⟩ ops).gets.length := by
    rw [hrel]
    exact (List.take_left _ _).symm
  refine ⟨htake, ?_⟩
  intro k hk
  have hklen : k < (trace_run ⟨q, [], []⟩ ops).puts.length := by
    have hlen := congrArg List.length hrel
    simp only [List.length_map, List.length_append] at hlen
    omega
  rw [htake]
  simp only [List.getD]
  rw [List.get?_take hk, List.get?_map, List.get?_eq_get hklen]
  simp [List.getD, List.get?_eq_get hklen]

/-- Witness for C3: two puts followed by three gets on a fresh
capacity-2 queue return exactly the two committed values in order. -/
theorem queue_fifo_witness :
    consumer_producer_init 2 = some queue_example_empty2 ∧
    (trace_run ⟨queue_example_empty2, [], []⟩
        [queue_op.put "a", queue_op.put "b", queue_op.get, queue_op.get, queue_op.get]).gets =
      ((trace_run ⟨queue_example_empty2, [], []⟩
          [queue_op.put "a", queue_op.put "b", queue_op.get, queue_op.get,
            queue_op.get]).puts.map some).take
        (trace_run ⟨queue_example_empty2, [], []⟩
            [queue_op.put "a", queue_op.put "b", queue_op.get, queue_op.get,
              queue_op.get]).gets.length :=
  ⟨by decide,
    (queue_fifo 2 queue_example_empty2 (by decide)
      [queue_op.put "a", queue_op.put "b", queue_op.get, queue_op.get, queue_op.get]).1⟩
